import Mathlib

/-!
Verification of the OpenWPM instrumentation record schema
(`src/types/schema.d.ts`).

The source file declares five TypeScript interfaces describing the records
produced by the browser instrumentation: `HttpRequest`, `HttpResponse`,
`HttpRedirect`, `JavascriptOperation` and `JavascriptCookieChange`.  Each
interface is a flat list of fields, each field either required or optional
(`?`), with a primitive type: `string` (also the `DateTime = string` alias),
`number`, or the closed string-literal union
`"deleted" | "added" | "changed"` on `JavascriptCookieChange.change`.

We embed TypeScript runtime values as JSON-like objects (association lists
of field name / primitive value pairs) and each interface as the list of its
field declarations, transcribed field by field from the source.  Structural
conformance of a value to an interface is the usual TypeScript rule: every
required field is present with a value of the declared type, every declared
field that is present has the declared type, and fields not mentioned by the
interface are unconstrained.
-/

/-- A primitive TypeScript runtime value as used by the schema: the five
interfaces only ever declare `string` (including the `DateTime` alias),
`number`, and a string-literal union, so a value is a string or a number.
Numbers appearing in the schema's records are integral flags, counters and
HTTP status codes; we embed them as integers. -/
inductive JSVal where
  | str : String → JSVal
  | num : Int → JSVal
deriving DecidableEq, Repr

/-- A TypeScript object value: an association list from field names to
primitive values. -/
abbrev JSObj := List (String × JSVal)

/-- Field lookup: the value of the first binding of `key`, if any. -/
def getField : JSObj → String → Option JSVal
  | [], _ => none
  | (k, v) :: rest, key => if k = key then some v else getField rest key

/-- The declared type of a schema field: `string` (also used for the
`DateTime = string` alias), `number`, or the literal union
`"deleted" | "added" | "changed"`. -/
inductive FieldType where
  | string
  | number
  | changeEnum
deriving DecidableEq, Repr

/-- One field declaration of an interface: its name, whether it is required
(no `?` in the source), and its declared type. -/
structure FieldDecl where
  name : String
  required : Bool
  ty : FieldType
deriving DecidableEq, Repr

/-- Does a runtime value belong to a declared field type? -/
def valHasType : JSVal → FieldType → Bool
  | .str _, .string => true
  | .num _, .number => true
  | .str s, .changeEnum => s = "deleted" || s = "added" || s = "changed"
  | _, _ => false

/-- The conformance check for a single field declaration against an object:
an absent field is allowed exactly when the field is optional, and a present
field must have the declared type. -/
def checkField (o : JSObj) (d : FieldDecl) : Bool :=
  match getField o d.name with
  | none => !d.required
  | some v => valHasType v d.ty

/-- Structural conformance of an object to an interface, TypeScript style:
every declared field checks out; undeclared fields are unconstrained. -/
def conforms (iface : List FieldDecl) (o : JSObj) : Bool :=
  iface.all (checkField o)

/-- The names of the required fields of an interface, in declaration
order. -/
def requiredNames (iface : List FieldDecl) : List String :=
  (iface.filter (fun d => d.required)).map (fun d => d.name)

/-- `interface HttpRequest` of `schema.d.ts`, field by field. -/
def HttpRequest : List FieldDecl := [
  ⟨"id", false, .number⟩,
  ⟨"crawl_id", false, .number⟩,
  ⟨"visit_id", false, .number⟩,
  ⟨"url", true, .string⟩,
  ⟨"top_level_url", false, .string⟩,
  ⟨"method", true, .string⟩,
  ⟨"referrer", true, .string⟩,
  ⟨"headers", true, .string⟩,
  ⟨"channel_id", true, .string⟩,
  ⟨"is_XHR", false, .number⟩,
  ⟨"is_frame_load", false, .number⟩,
  ⟨"is_full_page", false, .number⟩,
  ⟨"is_third_party_channel", false, .number⟩,
  ⟨"is_third_party_to_top_window", false, .number⟩,
  ⟨"triggering_origin", false, .string⟩,
  ⟨"loading_origin", false, .string⟩,
  ⟨"loading_href", false, .string⟩,
  ⟨"req_call_stack", false, .string⟩,
  ⟨"resource_type", true, .string⟩,
  ⟨"post_body", false, .string⟩,
  ⟨"time_stamp", true, .string⟩]

/-- `interface HttpResponse` of `schema.d.ts`, field by field. -/
def HttpResponse : List FieldDecl := [
  ⟨"id", false, .number⟩,
  ⟨"crawl_id", false, .number⟩,
  ⟨"visit_id", false, .number⟩,
  ⟨"url", true, .string⟩,
  ⟨"method", true, .string⟩,
  ⟨"referrer", true, .string⟩,
  ⟨"response_status", true, .number⟩,
  ⟨"response_status_text", true, .string⟩,
  ⟨"is_cached", true, .number⟩,
  ⟨"headers", true, .string⟩,
  ⟨"channel_id", true, .string⟩,
  ⟨"location", true, .string⟩,
  ⟨"time_stamp", true, .string⟩,
  ⟨"content_hash", false, .string⟩]

/-- `interface HttpRedirect` of `schema.d.ts`, field by field. -/
def HttpRedirect : List FieldDecl := [
  ⟨"id", false, .number⟩,
  ⟨"crawl_id", false, .number⟩,
  ⟨"visit_id", false, .number⟩,
  ⟨"old_channel_id", false, .string⟩,
  ⟨"new_channel_id", false, .string⟩,
  ⟨"is_temporary", true, .number⟩,
  ⟨"is_permanent", true, .number⟩,
  ⟨"is_internal", true, .number⟩,
  ⟨"is_sts_upgrade", true, .number⟩,
  ⟨"time_stamp", true, .string⟩]

/-- `interface JavascriptOperation` of `schema.d.ts`, field by field. -/
def JavascriptOperation : List FieldDecl := [
  ⟨"id", false, .number⟩,
  ⟨"crawl_id", false, .number⟩,
  ⟨"visit_id", false, .number⟩,
  ⟨"script_url", false, .string⟩,
  ⟨"script_line", false, .string⟩,
  ⟨"script_col", false, .string⟩,
  ⟨"func_name", false, .string⟩,
  ⟨"script_loc_eval", false, .string⟩,
  ⟨"document_url", false, .string⟩,
  ⟨"top_level_url", false, .string⟩,
  ⟨"call_stack", false, .string⟩,
  ⟨"symbol", false, .string⟩,
  ⟨"operation", false, .string⟩,
  ⟨"value", false, .string⟩,
  ⟨"arguments", false, .string⟩,
  ⟨"time_stamp", true, .string⟩]

/-- `interface JavascriptCookieChange` of `schema.d.ts`, field by field.
`creationTime`, `expiry` and `last_accessed` use the `DateTime = string`
alias; note that `expires` is a `number` and that every field is optional. -/
def JavascriptCookieChange : List FieldDecl := [
  ⟨"id", false, .number⟩,
  ⟨"crawl_id", false, .number⟩,
  ⟨"visit_id", false, .number⟩,
  ⟨"change", false, .changeEnum⟩,
  ⟨"creationTime", false, .string⟩,
  ⟨"expiry", false, .string⟩,
  ⟨"is_http_only", false, .number⟩,
  ⟨"is_host_only", false, .number⟩,
  ⟨"is_session", false, .number⟩,
  ⟨"last_accessed", false, .string⟩,
  ⟨"raw_host", false, .string⟩,
  ⟨"expires", false, .number⟩,
  ⟨"host", false, .string⟩,
  ⟨"is_domain", false, .number⟩,
  ⟨"is_secure", false, .number⟩,
  ⟨"name", false, .string⟩,
  ⟨"path", false, .string⟩,
  ⟨"policy", false, .number⟩,
  ⟨"status", false, .number⟩,
  ⟨"value", false, .string⟩,
  ⟨"same_site", false, .string⟩,
  ⟨"first_party_domain", false, .string⟩]

/-- Is a runtime value a number? -/
def isNum : JSVal → Bool
  | .num _ => true
  | .str _ => false

/-! ### General lemmas about conformance -/

theorem checkField_of_conforms {iface : List FieldDecl} {o : JSObj} {d : FieldDecl}
    (hd : d ∈ iface) (h : conforms iface o = true) : checkField o d = true := by
  unfold conforms at h
  rw [List.all_eq_true] at h
  exact h d hd

theorem required_present {iface : List FieldDecl} {o : JSObj} {d : FieldDecl}
    (hd : d ∈ iface) (hreq : d.required = true) (h : conforms iface o = true) :
    (getField o d.name).isSome = true := by
  have hc := checkField_of_conforms hd h
  unfold checkField at hc
  cases hg : getField o d.name with
  | none => rw [hg, hreq] at hc; simp at hc
  | some v => rfl

theorem conforms_false_of_check_false {iface : List FieldDecl} {o : JSObj} {d : FieldDecl}
    (hd : d ∈ iface) (hc : checkField o d = false) : conforms iface o = false := by
  cases h : conforms iface o with
  | false => rfl
  | true => rw [checkField_of_conforms hd h] at hc; exact absurd hc (by simp)

theorem conforms_false_of_required_absent {iface : List FieldDecl} {o : JSObj} {d : FieldDecl}
    (hd : d ∈ iface) (hreq : d.required = true) (habs : getField o d.name = none) :
    conforms iface o = false := by
  apply conforms_false_of_check_false hd
  unfold checkField
  rw [habs, hreq]
  rfl

theorem field_type_of_conforms {iface : List FieldDecl} {o : JSObj} {d : FieldDecl} {v : JSVal}
    (hd : d ∈ iface) (h : conforms iface o = true) (hg : getField o d.name = some v) :
    valHasType v d.ty = true := by
  have hc := checkField_of_conforms hd h
  unfold checkField at hc
  rw [hg] at hc
  exact hc

theorem isNum_of_number {v : JSVal} (h : valHasType v FieldType.number = true) :
    isNum v = true := by
  cases v with
  | num i => rfl
  | str s => simp [valHasType] at h

theorem numeric_field_of_conforms {iface : List FieldDecl} {o : JSObj} {nm : String} {v : JSVal}
    {b : Bool} (hd : (⟨nm, b, FieldType.number⟩ : FieldDecl) ∈ iface)
    (h : conforms iface o = true) (hg : getField o nm = some v) : isNum v = true :=
  isNum_of_number (field_type_of_conforms hd h hg)

/-! ### Sample records used in witnesses -/

/-- A minimal conforming `HttpRequest`: exactly the required fields. -/
def sampleRequest : JSObj :=
  [("url", .str "https://example.com"), ("method", .str "GET"), ("referrer", .str ""),
   ("headers", .str "\x7b\x7d"), ("channel_id", .str "c1"), ("resource_type", .str "script"),
   ("time_stamp", .str "2024-01-01T00:00:00Z")]

/-- The example `HttpResponse` value given in the specification. -/
def sampleResponse : JSObj :=
  [("url", .str "https://example.com"), ("method", .str "GET"), ("referrer", .str ""),
   ("response_status", .num 200), ("response_status_text", .str "OK"), ("is_cached", .num 0),
   ("headers", .str "\x7b\x7d"), ("channel_id", .str "abc123"), ("location", .str ""),
   ("time_stamp", .str "2024-01-01T00:00:00Z")]

/-- A minimal conforming `HttpRedirect`: the four flags and the timestamp. -/
def sampleRedirect : JSObj :=
  [("is_temporary", .num 0), ("is_permanent", .num 1), ("is_internal", .num 0),
   ("is_sts_upgrade", .num 0), ("time_stamp", .str "2024-01-01T00:00:00Z")]

/-- A minimal conforming `JavascriptOperation`: just the timestamp. -/
def sampleOperation : JSObj :=
  [("time_stamp", .str "2024-01-01T00:00:00Z")]

/-- A small conforming `JavascriptCookieChange`. -/
def sampleCookieChange : JSObj :=
  [("change", .str "added"), ("name", .str "session"), ("value", .str "xyz"),
   ("is_secure", .num 1)]

/-- Prepend the three identifier fields to a record. -/
def withIds (o : JSObj) : JSObj :=
  ("id", .num 1) :: ("crawl_id", .num 2) :: ("visit_id", .num 3) :: o

/-- A conforming `HttpRequest` carrying the flag value `is_XHR = 2`. -/
def reqWithFlag2 : JSObj := ("is_XHR", .num 2) :: sampleRequest

/-! ### Claim theorems -/

/-- C1, counterexample: the empty object conforms to `JavascriptCookieChange`
although it has no `time_stamp` field, so it is not the case that every
conforming value of every one of the five record kinds has `time_stamp`
present — the `JavascriptCookieChange` interface does not even declare a
`time_stamp` field. -/
theorem c1_counterexample :
    conforms JavascriptCookieChange [] = true ∧
    getField [] "time_stamp" = none := by
  exact ⟨by decide, rfl⟩

/-- C1, amended: `time_stamp` is a required field of `HttpRequest`,
`HttpResponse`, `HttpRedirect` and `JavascriptOperation`, so every value
conforming to one of those four kinds has a `time_stamp` field present;
`JavascriptCookieChange` declares no `time_stamp` field at all. -/
theorem c1_time_stamp_required (o1 o2 o3 o4 : JSObj)
    (h1 : conforms HttpRequest o1 = true) (h2 : conforms HttpResponse o2 = true)
    (h3 : conforms HttpRedirect o3 = true) (h4 : conforms JavascriptOperation o4 = true) :
    (getField o1 "time_stamp").isSome = true ∧ (getField o2 "time_stamp").isSome = true ∧
    (getField o3 "time_stamp").isSome = true ∧ (getField o4 "time_stamp").isSome = true := by
  refine ⟨?_, ?_, ?_, ?_⟩
  · exact required_present (d := ⟨"time_stamp", true, .string⟩) (by decide) rfl h1
  · exact required_present (d := ⟨"time_stamp", true, .string⟩) (by decide) rfl h2
  · exact required_present (d := ⟨"time_stamp", true, .string⟩) (by decide) rfl h3
  · exact required_present (d := ⟨"time_stamp", true, .string⟩) (by decide) rfl h4

/-- C1 witness: the amended theorem applied to four concrete records. -/
theorem c1_witness :
    (getField sampleRequest "time_stamp").isSome = true ∧
    (getField sampleResponse "time_stamp").isSome = true ∧
    (getField sampleRedirect "time_stamp").isSome = true ∧
    (getField sampleOperation "time_stamp").isSome = true :=
  c1_time_stamp_required sampleRequest sampleResponse sampleRedirect sampleOperation
    (by decide) (by decide) (by decide) (by decide)

/-- C2, counterexample: the record `reqWithFlag2`, which carries
`is_XHR = 2`, conforms to `HttpRequest` — the schema types the flag fields
as plain `number`, so a numeric flag value other than 0 and 1 also
conforms. -/
theorem c2_counterexample :
    conforms HttpRequest reqWithFlag2 = true ∧
    getField reqWithFlag2 "is_XHR" = some (.num 2) ∧
    JSVal.num 2 ≠ JSVal.num 0 ∧ JSVal.num 2 ≠ JSVal.num 1 := by
  decide

/-- The flag fields declared on `HttpRequest`. -/
def httpRequestFlags : List String :=
  ["is_XHR", "is_frame_load", "is_full_page", "is_third_party_channel",
   "is_third_party_to_top_window"]

/-- The flag field declared on `HttpResponse`. -/
def httpResponseFlags : List String := ["is_cached"]

/-- The flag fields declared on `HttpRedirect`. -/
def httpRedirectFlags : List String :=
  ["is_temporary", "is_permanent", "is_internal", "is_sts_upgrade"]

/-- The flag fields declared on `JavascriptCookieChange`. -/
def cookieChangeFlags : List String :=
  ["is_http_only", "is_host_only", "is_session", "is_domain", "is_secure"]

/-- C2, amended: flag fields are typed `number` in the schema, so on a
conforming record a present flag field always holds a numeric value; the
schema does not restrict that number to 0 or 1 (the 0/1 encoding is a
convention the types do not enforce, as the counterexample shows). -/
theorem c2_flags_numeric (o : JSObj) (nm : String) (v : JSVal)
    (hkind : (conforms HttpRequest o = true ∧ nm ∈ httpRequestFlags) ∨
             (conforms HttpResponse o = true ∧ nm ∈ httpResponseFlags) ∨
             (conforms HttpRedirect o = true ∧ nm ∈ httpRedirectFlags) ∨
             (conforms JavascriptCookieChange o = true ∧ nm ∈ cookieChangeFlags))
    (hg : getField o nm = some v) :
    isNum v = true := by
  rcases hkind with ⟨h, hmem⟩ | ⟨h, hmem⟩ | ⟨h, hmem⟩ | ⟨h, hmem⟩
  · simp only [httpRequestFlags, List.mem_cons, List.not_mem_nil, or_false] at hmem
    rcases hmem with rfl | rfl | rfl | rfl | rfl <;>
      exact numeric_field_of_conforms (b := false) (by decide) h hg
  · simp only [httpResponseFlags, List.mem_cons, List.not_mem_nil, or_false] at hmem
    rcases hmem with rfl
    exact numeric_field_of_conforms (b := true) (by decide) h hg
  · simp only [httpRedirectFlags, List.mem_cons, List.not_mem_nil, or_false] at hmem
    rcases hmem with rfl | rfl | rfl | rfl <;>
      exact numeric_field_of_conforms (b := true) (by decide) h hg
  · simp only [cookieChangeFlags, List.mem_cons, List.not_mem_nil, or_false] at hmem
    rcases hmem with rfl | rfl | rfl | rfl | rfl <;>
      exact numeric_field_of_conforms (b := false) (by decide) h hg

/-- C2 witness: the amended theorem applied to a concrete redirect record. -/
theorem c2_witness : isNum (JSVal.num 0) = true :=
  c2_flags_numeric sampleRedirect "is_temporary" (JSVal.num 0)
    (Or.inr (Or.inr (Or.inl ⟨by decide, by decide⟩))) (by decide)

/-- C3: on a conforming `JavascriptCookieChange`, a present `change` field
holds one of the three strings `"deleted"`, `"added"`, `"changed"`, and a
record whose `change` field holds any other string does not conform. -/
theorem c3_change_restricted (o1 o2 : JSObj) (v : JSVal) (s : String)
    (h1 : conforms JavascriptCookieChange o1 = true)
    (hg1 : getField o1 "change" = some v)
    (hg2 : getField o2 "change" = some (.str s))
    (hs : ¬(s = "deleted" ∨ s = "added" ∨ s = "changed")) :
    (v = .str "deleted" ∨ v = .str "added" ∨ v = .str "changed") ∧
    conforms JavascriptCookieChange o2 = false := by
  push_neg at hs
  constructor
  · have ht := field_type_of_conforms (d := ⟨"change", false, .changeEnum⟩) (by decide) h1 hg1
    cases v with
    | num i => simp [valHasType] at ht
    | str t =>
      simp only [valHasType, Bool.or_eq_true, decide_eq_true_eq] at ht
      rcases ht with (rfl | rfl) | rfl
      · exact Or.inl rfl
      · exact Or.inr (Or.inl rfl)
      · exact Or.inr (Or.inr rfl)
  · apply conforms_false_of_check_false (d := ⟨"change", false, .changeEnum⟩) (by decide)
    unfold checkField
    rw [hg2]
    simp only [valHasType, Bool.or_eq_false_iff, decide_eq_false_iff_not]
    exact ⟨⟨hs.1, hs.2.1⟩, hs.2.2⟩

/-- C3 witness: the theorem applied to a conforming record with
`change = "added"` and a record with `change = "bogus"`. -/
theorem c3_witness :
    (JSVal.str "added" = JSVal.str "deleted" ∨ JSVal.str "added" = JSVal.str "added" ∨
     JSVal.str "added" = JSVal.str "changed") ∧
    conforms JavascriptCookieChange [("change", .str "bogus")] = false :=
  c3_change_restricted sampleCookieChange [("change", .str "bogus")] (JSVal.str "added") "bogus"
    (by decide) (by decide) (by decide) (by decide)

/-- An `HttpRequest` record containing exactly the seven required fields,
each with an arbitrary value of the declared (string) type. -/
def minimalRequest (u m r hs c rt ts : String) : JSObj :=
  [("url", .str u), ("method", .str m), ("referrer", .str r), ("headers", .str hs),
   ("channel_id", .str c), ("resource_type", .str rt), ("time_stamp", .str ts)]

/-- C4: a value containing exactly the fields `url`, `method`, `referrer`,
`headers`, `channel_id`, `resource_type`, `time_stamp` — each a string, with
no other fields — conforms to `HttpRequest`, and these seven fields are
precisely the required fields of `HttpRequest`. -/
theorem c4_http_request_required_fields (u m r hs c rt ts : String) :
    conforms HttpRequest (minimalRequest u m r hs c rt ts) = true ∧
    requiredNames HttpRequest =
      ["url", "method", "referrer", "headers", "channel_id", "resource_type", "time_stamp"] := by
  exact ⟨rfl, by decide⟩

/-- C5: for any of the five record kinds, a value from which some required
field of that kind is absent does not conform to the kind, whatever other
fields it has. -/
theorem c5_missing_required_rejected (iface : List FieldDecl) (d : FieldDecl) (o : JSObj)
    (_hfive : iface = HttpRequest ∨ iface = HttpResponse ∨ iface = HttpRedirect ∨
             iface = JavascriptOperation ∨ iface = JavascriptCookieChange)
    (hd : d ∈ iface) (hreq : d.required = true)
    (habs : getField o d.name = none) :
    conforms iface o = false :=
  conforms_false_of_required_absent hd hreq habs

/-- C5 witness: the empty object is rejected by `HttpRequest`, whose `url`
field is required. -/
theorem c5_witness : conforms HttpRequest [] = false :=
  c5_missing_required_rejected HttpRequest ⟨"url", true, .string⟩ []
    (Or.inl rfl) (by decide) rfl rfl

/-- C6: the specification's example `HttpResponse` value conforms to
`HttpResponse`, even though `content_hash` and the identifier fields
`id`, `crawl_id`, `visit_id` are absent from it — those fields are
optional. -/
theorem c6_sample_response_conforms :
    conforms HttpResponse sampleResponse = true ∧
    getField sampleResponse "content_hash" = none ∧
    getField sampleResponse "id" = none ∧
    getField sampleResponse "crawl_id" = none ∧
    getField sampleResponse "visit_id" = none := by
  decide

/-- Remove the three identifier fields `id`, `crawl_id`, `visit_id` from a
record. -/
def dropIdFields (o : JSObj) : JSObj :=
  o.filter (fun p => !(p.1 == "id" || p.1 == "crawl_id" || p.1 == "visit_id"))

theorem getField_cons (kk : String) (v : JSVal) (tl : JSObj) (k : String) :
    getField ((kk, v) :: tl) k = if kk = k then some v else getField tl k := rfl

theorem getField_filter_of_none (q : String × JSVal → Bool) (o : JSObj) (k : String)
    (hq : ∀ v : JSVal, q (k, v) = false) :
    getField (o.filter q) k = none := by
  induction o with
  | nil => rfl
  | cons p tl ih =>
    obtain ⟨kk, v⟩ := p
    by_cases hkk : kk = k
    · subst hkk
      simp only [List.filter, hq v]
      exact ih
    · cases hkeep : q (kk, v) with
      | false => simp only [List.filter, hkeep]; exact ih
      | true =>
        simp only [List.filter, hkeep]
        rw [getField_cons, if_neg hkk]
        exact ih

theorem getField_filter_of_kept (q : String × JSVal → Bool) (o : JSObj) (k : String)
    (hq : ∀ v : JSVal, q (k, v) = true) :
    getField (o.filter q) k = getField o k := by
  induction o with
  | nil => rfl
  | cons p tl ih =>
    obtain ⟨kk, v⟩ := p
    by_cases hkk : kk = k
    · subst hkk
      simp only [List.filter, hq v]
      rw [getField_cons, getField_cons, if_pos rfl, if_pos rfl]
    · cases hkeep : q (kk, v) with
      | false =>
        simp only [List.filter, hkeep]
        rw [ih, getField_cons, if_neg hkk]
      | true =>
        simp only [List.filter, hkeep]
        rw [getField_cons, getField_cons, if_neg hkk, if_neg hkk]
        exact ih

theorem getField_dropIdFields_id (o : JSObj) (k : String)
    (hk : k = "id" ∨ k = "crawl_id" ∨ k = "visit_id") :
    getField (dropIdFields o) k = none := by
  apply getField_filter_of_none
  intro v
  rcases hk with rfl | rfl | rfl <;> rfl

theorem getField_dropIdFields_other (o : JSObj) (k : String)
    (hk : ¬(k = "id" ∨ k = "crawl_id" ∨ k = "visit_id")) :
    getField (dropIdFields o) k = getField o k := by
  apply getField_filter_of_kept
  intro v
  push_neg at hk
  obtain ⟨h1, h2, h3⟩ := hk
  simp [h1, h2, h3]

theorem conforms_dropIdFields {iface : List FieldDecl} {o : JSObj}
    (hopt : ∀ d ∈ iface,
      (d.name = "id" ∨ d.name = "crawl_id" ∨ d.name = "visit_id") → d.required = false)
    (h : conforms iface o = true) :
    conforms iface (dropIdFields o) = true := by
  unfold conforms at h ⊢
  rw [List.all_eq_true] at h ⊢
  intro d hd
  have hcd := h d hd
  unfold checkField at hcd ⊢
  by_cases hname : d.name = "id" ∨ d.name = "crawl_id" ∨ d.name = "visit_id"
  · rw [getField_dropIdFields_id o d.name hname, hopt d hd hname]
    rfl
  · rw [getField_dropIdFields_other o d.name hname]
    exact hcd

/-- C7: the identifier fields `id`, `crawl_id`, `visit_id` are optional on
all five record kinds: removing them from any conforming value leaves it
conforming. -/
theorem c7_identifiers_optional (o1 o2 o3 o4 o5 : JSObj)
    (h1 : conforms HttpRequest o1 = true) (h2 : conforms HttpResponse o2 = true)
    (h3 : conforms HttpRedirect o3 = true) (h4 : conforms JavascriptOperation o4 = true)
    (h5 : conforms JavascriptCookieChange o5 = true) :
    conforms HttpRequest (dropIdFields o1) = true ∧
    conforms HttpResponse (dropIdFields o2) = true ∧
    conforms HttpRedirect (dropIdFields o3) = true ∧
    conforms JavascriptOperation (dropIdFields o4) = true ∧
    conforms JavascriptCookieChange (dropIdFields o5) = true := by
  refine ⟨?_, ?_, ?_, ?_, ?_⟩
  · exact conforms_dropIdFields (by decide) h1
  · exact conforms_dropIdFields (by decide) h2
  · exact conforms_dropIdFields (by decide) h3
  · exact conforms_dropIdFields (by decide) h4
  · exact conforms_dropIdFields (by decide) h5

/-- C7 witness: the theorem applied to five concrete conforming records that
carry all three identifier fields. -/
theorem c7_witness :
    conforms HttpRequest (dropIdFields (withIds sampleRequest)) = true ∧
    conforms HttpResponse (dropIdFields (withIds sampleResponse)) = true ∧
    conforms HttpRedirect (dropIdFields (withIds sampleRedirect)) = true ∧
    conforms JavascriptOperation (dropIdFields (withIds sampleOperation)) = true ∧
    conforms JavascriptCookieChange (dropIdFields (withIds sampleCookieChange)) = true :=
  c7_identifiers_optional (withIds sampleRequest) (withIds sampleResponse)
    (withIds sampleRedirect) (withIds sampleOperation) (withIds sampleCookieChange)
    (by decide) (by decide) (by decide) (by decide) (by decide)

/-- C9: `JavascriptCookieChange` has no required field at all — every one of
its 22 declared fields is optional — and consequently the empty record
conforms to it. -/
theorem c9_cookie_change_no_required :
    (JavascriptCookieChange.all fun d => !d.required) = true ∧
    requiredNames JavascriptCookieChange = [] ∧
    conforms JavascriptCookieChange [] = true := by
  decide

/-- An `HttpRedirect` record carrying only the four flag fields and the
timestamp, with arbitrary numeric flag values. -/
def minimalRedirect (n1 n2 n3 n4 : Int) (ts : String) : JSObj :=
  [("is_temporary", .num n1), ("is_permanent", .num n2), ("is_internal", .num n3),
   ("is_sts_upgrade", .num n4), ("time_stamp", .str ts)]

/-- C10: in `HttpRedirect` the channel identifiers `old_channel_id` and
`new_channel_id` are optional while the four flags are required: a record
with the four flags and `time_stamp` but no channel identifiers conforms,
and a record missing any of the four flags does not. -/
theorem c10_redirect_flags (n1 n2 n3 n4 : Int) (ts : String) (o : JSObj)
    (habs : getField o "is_temporary" = none ∨ getField o "is_permanent" = none ∨
            getField o "is_internal" = none ∨ getField o "is_sts_upgrade" = none) :
    conforms HttpRedirect (minimalRedirect n1 n2 n3 n4 ts) = true ∧
    (⟨"old_channel_id", false, FieldType.string⟩ : FieldDecl) ∈ HttpRedirect ∧
    (⟨"new_channel_id", false, FieldType.string⟩ : FieldDecl) ∈ HttpRedirect ∧
    conforms HttpRedirect o = false := by
  refine ⟨rfl, by decide, by decide, ?_⟩
  rcases habs with h | h | h | h
  · exact conforms_false_of_required_absent (d := ⟨"is_temporary", true, .number⟩)
      (by decide) rfl h
  · exact conforms_false_of_required_absent (d := ⟨"is_permanent", true, .number⟩)
      (by decide) rfl h
  · exact conforms_false_of_required_absent (d := ⟨"is_internal", true, .number⟩)
      (by decide) rfl h
  · exact conforms_false_of_required_absent (d := ⟨"is_sts_upgrade", true, .number⟩)
      (by decide) rfl h

/-- C10 witness: the theorem applied to concrete flag values and the empty
object, which is missing all four flags. -/
theorem c10_witness :
    conforms HttpRedirect (minimalRedirect 1 0 0 0 "2024-01-01T00:00:00Z") = true ∧
    (⟨"old_channel_id", false, FieldType.string⟩ : FieldDecl) ∈ HttpRedirect ∧
    (⟨"new_channel_id", false, FieldType.string⟩ : FieldDecl) ∈ HttpRedirect ∧
    conforms HttpRedirect [] = false :=
  c10_redirect_flags 1 0 0 0 "2024-01-01T00:00:00Z" [] (Or.inl rfl)

/-!
### Serialization of records — modelled from the spec

The repository fragment under verification only contains the schema
declarations; the code that serializes conforming records to the external
storage format and parses them back is elsewhere in the repository and is
not part of the supplied sources.  Following the specification — records
are flat field/value structures, `headers` blobs are presumably
JSON-encoded, and a round trip must be field-for-field the identity, with
no precision loss on numeric flags and no change to string contents — we
model the storage format as the standard JSON-style textual encoding of a
flat object: `\x7b"field":value,...\x7d` with strings quoted and
backslash-escaped and numbers written in decimal.
-/

/-- The decimal digits of a natural number, most significant first. -/
def natDigits (n : Nat) : List Char :=
  if h : n < 10 then [Nat.digitChar n]
  else natDigits (n / 10) ++ [Nat.digitChar (n % 10)]
decreasing_by exact Nat.div_lt_self (by omega) (by omega)

/-- One step of decimal accumulation while reading digits. -/
def digitStep (a : Nat) (c : Char) : Nat := 10 * a + (c.toNat - 48)

/-- The value of a digit string, most significant first. -/
def digitsToNat (ds : List Char) : Nat := ds.foldl digitStep 0

/-- Split a character list into its leading run of decimal digits and the
remainder. -/
def takeDigits : List Char → List Char × List Char
  | [] => ([], [])
  | c :: cs =>
    if c.isDigit then ((takeDigits cs).1.cons c, (takeDigits cs).2)
    else ([], c :: cs)

/-- Does the list avoid starting with a decimal digit? -/
def headNotDigit : List Char → Bool
  | [] => true
  | c :: _ => !c.isDigit

/-- The decimal rendering of an integer: an optional minus sign followed by
the digits of its absolute value. -/
def intChars (i : Int) : List Char :=
  if i < 0 then '-' :: natDigits i.natAbs else natDigits i.natAbs

/-- Read a decimal integer — an optional minus sign followed by at least
one digit — off the front of a character list. -/
def parseIntChars : List Char → Option (Int × List Char)
  | [] => none
  | c :: cs =>
    if c = '-' then
      match takeDigits cs with
      | ([], _) => none
      | (d :: ds, r) => some (-((digitsToNat (d :: ds) : Nat) : Int), r)
    else
      match takeDigits (c :: cs) with
      | ([], _) => none
      | (d :: ds, r) => some (((digitsToNat (d :: ds) : Nat) : Int), r)

theorem digitChar_isDigit {n : Nat} (h : n < 10) : (Nat.digitChar n).isDigit = true := by
  interval_cases n <;> decide

theorem digitChar_toNat {n : Nat} (h : n < 10) : (Nat.digitChar n).toNat = n + 48 := by
  interval_cases n <;> decide

theorem natDigits_all_digit (n : Nat) : (natDigits n).all Char.isDigit = true := by
  induction n using natDigits.induct with
  | case1 n h => rw [natDigits, dif_pos h]; simp [digitChar_isDigit h]
  | case2 n h ih =>
    rw [natDigits, dif_neg h]
    simp only [List.all_append, ih, Bool.true_and, List.all_cons, List.all_nil, Bool.and_true]
    exact digitChar_isDigit (Nat.mod_lt n (by omega))

theorem natDigits_ne_nil (n : Nat) : natDigits n ≠ [] := by
  unfold natDigits
  by_cases h : n < 10
  · rw [dif_pos h]; exact List.cons_ne_nil _ _
  · rw [dif_neg h]; exact List.append_ne_nil_of_right_ne_nil _ (List.cons_ne_nil _ _)

theorem foldl_natDigits (n : Nat) :
    ∀ a : Nat, (natDigits n).foldl digitStep a = a * 10 ^ (natDigits n).length + n := by
  induction n using natDigits.induct with
  | case1 n h =>
    intro a
    rw [natDigits, dif_pos h]
    simp only [List.foldl, List.length_cons, List.length_nil, pow_one, digitStep,
      digitChar_toNat h]
    omega
  | case2 n h ih =>
    intro a
    rw [natDigits, dif_neg h]
    rw [List.foldl_append, ih, List.length_append]
    simp only [List.foldl, List.length_cons, List.length_nil, digitStep,
      digitChar_toNat (Nat.mod_lt n (by omega)), Nat.add_sub_cancel]
    rw [pow_succ]
    have hm : 10 * (n / 10) + n % 10 = n := Nat.div_add_mod n 10
    calc 10 * (a * 10 ^ (natDigits (n / 10)).length + n / 10) + n % 10
        = a * (10 ^ (natDigits (n / 10)).length * 10) + (10 * (n / 10) + n % 10) := by ring
      _ = a * (10 ^ (natDigits (n / 10)).length * 10) + n := by rw [hm]

theorem digitsToNat_natDigits (n : Nat) : digitsToNat (natDigits n) = n := by
  unfold digitsToNat
  rw [foldl_natDigits n 0]
  simp

theorem takeDigits_spec (ds rest : List Char) (hds : ds.all Char.isDigit = true)
    (hrest : headNotDigit rest = true) : takeDigits (ds ++ rest) = (ds, rest) := by
  induction ds with
  | nil =>
    simp only [List.nil_append]
    cases rest with
    | nil => rfl
    | cons c tl =>
      unfold headNotDigit at hrest
      unfold takeDigits
      rw [if_neg]
      simp only [Bool.not_eq_true'] at hrest
      simp [hrest]
  | cons d ds ih =>
    simp only [List.all_cons, Bool.and_eq_true] at hds
    unfold takeDigits
    simp only [List.cons_append]
    rw [if_pos hds.1, ih hds.2]

theorem isDigit_ne_of_not {c c' : Char} (h : c.isDigit = true) (h' : c'.isDigit = false) :
    c ≠ c' := by
  intro heq
  rw [heq, h'] at h
  exact absurd h (by simp)

theorem natDigits_head_digit (n : Nat) {d : Char} {ds : List Char}
    (h : natDigits n = d :: ds) : d.isDigit = true := by
  have hall := natDigits_all_digit n
  rw [h] at hall
  simp only [List.all_cons, Bool.and_eq_true] at hall
  exact hall.1

theorem parseIntChars_spec (i : Int) (rest : List Char) (hrest : headNotDigit rest = true) :
    parseIntChars (intChars i ++ rest) = some (i, rest) := by
  have htd : takeDigits (natDigits i.natAbs ++ rest) = (natDigits i.natAbs, rest) :=
    takeDigits_spec _ _ (natDigits_all_digit _) hrest
  obtain ⟨d, ds, hds⟩ : ∃ d ds, natDigits i.natAbs = d :: ds := by
    cases h : natDigits i.natAbs with
    | nil => exact absurd h (natDigits_ne_nil _)
    | cons d ds => exact ⟨d, ds, rfl⟩
  have hdig : d.isDigit = true := natDigits_head_digit _ hds
  have hv : digitsToNat (d :: ds) = i.natAbs := by rw [← hds, digitsToNat_natDigits]
  rw [hds] at htd
  by_cases hi : i < 0
  · unfold intChars
    rw [if_pos hi, hds]
    show parseIntChars ('-' :: ((d :: ds) ++ rest)) = some (i, rest)
    simp only [parseIntChars, if_true]
    rw [htd]
    show some (-((digitsToNat (d :: ds) : Nat) : Int), rest) = some (i, rest)
    rw [hv]
    have hni : -((i.natAbs : Nat) : Int) = i := by omega
    rw [hni]
  · unfold intChars
    rw [if_neg hi, hds, List.cons_append]
    simp only [parseIntChars]
    rw [if_neg (isDigit_ne_of_not hdig (by decide))]
    rw [← List.cons_append, htd]
    show some (((digitsToNat (d :: ds) : Nat) : Int), rest) = some (i, rest)
    rw [hv]
    have hni : ((i.natAbs : Nat) : Int) = i := by omega
    rw [hni]

/-- Escape one character for inclusion in a quoted string: backslashes and
double quotes are preceded by a backslash. -/
def escapeChar (c : Char) : List Char :=
  if c = '\\' then ['\\', '\\']
  else if c = '"' then ['\\', '"']
  else [c]

/-- Escape a character list for inclusion in a quoted string. -/
def escapeList : List Char → List Char
  | [] => []
  | c :: cs => escapeChar c ++ escapeList cs

/-- Read the body of a quoted string up to its closing double quote,
undoing backslash escapes; returns the unescaped body and the characters
after the closing quote. -/
def parseStrChars : List Char → Option (List Char × List Char)
  | [] => none
  | c :: cs =>
    if c = '"' then some ([], cs)
    else if c = '\\' then
      match cs with
      | [] => none
      | d :: cs2 => (parseStrChars cs2).map (fun p => (d :: p.1, p.2))
    else
      (parseStrChars cs).map (fun p => (c :: p.1, p.2))

theorem parseStrChars_quote (cs : List Char) : parseStrChars ('"' :: cs) = some ([], cs) := by
  rw [parseStrChars.eq_def]
  rfl

theorem parseStrChars_esc (d : Char) (cs2 : List Char) :
    parseStrChars ('\\' :: d :: cs2) = (parseStrChars cs2).map (fun p => (d :: p.1, p.2)) := by
  rw [parseStrChars.eq_def]
  rfl

theorem parseStrChars_other (c : Char) (cs : List Char) (hq : ¬c = '"') (hb : ¬c = '\\') :
    parseStrChars (c :: cs) = (parseStrChars cs).map (fun p => (c :: p.1, p.2)) := by
  rw [parseStrChars.eq_def]
  show (if c = '"' then some ([], cs)
    else if c = '\\' then
      match cs with
      | [] => none
      | d :: cs2 => (parseStrChars cs2).map (fun p => (d :: p.1, p.2))
    else (parseStrChars cs).map (fun p => (c :: p.1, p.2))) =
    (parseStrChars cs).map (fun p => (c :: p.1, p.2))
  rw [if_neg hq, if_neg hb]

theorem parseStrChars_spec (s rest : List Char) :
    parseStrChars (escapeList s ++ ('"' :: rest)) = some (s, rest) := by
  induction s with
  | nil => exact parseStrChars_quote rest
  | cons c cs ih =>
    show parseStrChars ((escapeChar c ++ escapeList cs) ++ ('"' :: rest)) = some (c :: cs, rest)
    rw [List.append_assoc]
    by_cases hb : c = '\\'
    · subst hb
      show parseStrChars ('\\' :: '\\' :: (escapeList cs ++ ('"' :: rest))) =
        some ('\\' :: cs, rest)
      rw [parseStrChars_esc, ih]
      rfl
    · by_cases hq : c = '"'
      · subst hq
        show parseStrChars ('\\' :: '"' :: (escapeList cs ++ ('"' :: rest))) =
          some ('"' :: cs, rest)
        rw [parseStrChars_esc, ih]
        rfl
      · have he : escapeChar c = [c] := by
          unfold escapeChar
          rw [if_neg hb, if_neg hq]
        rw [he]
        show parseStrChars (c :: (escapeList cs ++ ('"' :: rest))) = some (c :: cs, rest)
        rw [parseStrChars_other c _ hq hb, ih]
        rfl

/-- The serialized form of a primitive value: strings are quoted and
escaped, numbers are written in decimal. -/
def printVal : JSVal → List Char
  | .str s => '"' :: (escapeList s.data ++ ['"'])
  | .num i => intChars i

/-- Read a primitive value — a quoted string or a decimal integer — off the
front of a character list. -/
def parseVal (cs : List Char) : Option (JSVal × List Char) :=
  if cs.head? = some '"' then
    (parseStrChars cs.tail).map (fun p => (JSVal.str (String.mk p.1), p.2))
  else
    (parseIntChars cs).map (fun p => (JSVal.num p.1, p.2))

theorem intChars_ne_nil (i : Int) : intChars i ≠ [] := by
  unfold intChars
  by_cases hi : i < 0
  · rw [if_pos hi]; exact List.cons_ne_nil _ _
  · rw [if_neg hi]; exact natDigits_ne_nil _

theorem intChars_head_ne_quote (i : Int) {c : Char} {cs : List Char}
    (h : intChars i = c :: cs) : c ≠ '"' := by
  unfold intChars at h
  by_cases hi : i < 0
  · rw [if_pos hi] at h
    injection h with h1 _
    rw [← h1]
    decide
  · rw [if_neg hi] at h
    exact isDigit_ne_of_not (natDigits_head_digit _ h) (by decide)

theorem parseVal_spec (v : JSVal) (rest : List Char) (hrest : headNotDigit rest = true) :
    parseVal (printVal v ++ rest) = some (v, rest) := by
  cases v with
  | str s =>
    show parseVal (('"' :: (escapeList s.data ++ ['"'])) ++ rest) = some (.str s, rest)
    rw [List.cons_append, List.append_assoc, List.singleton_append]
    unfold parseVal
    rw [if_pos (by simp)]
    show (parseStrChars (escapeList s.data ++ ('"' :: rest))).map
      (fun p => (JSVal.str (String.mk p.1), p.2)) = some (.str s, rest)
    rw [parseStrChars_spec]
    rfl
  | num i =>
    obtain ⟨c, cs, hc⟩ : ∃ c cs, intChars i = c :: cs := by
      cases h : intChars i with
      | nil => exact absurd h (intChars_ne_nil _)
      | cons c cs => exact ⟨c, cs, rfl⟩
    show parseVal (intChars i ++ rest) = some (.num i, rest)
    unfold parseVal
    rw [if_neg]
    · rw [parseIntChars_spec i rest hrest]
      rfl
    · rw [hc, List.cons_append]
      simp only [List.head?_cons, Option.some.injEq]
      exact intChars_head_ne_quote i hc

/-- The serialized form of one field: the quoted, escaped field name, a
colon, and the serialized value. -/
def printField (f : String × JSVal) : List Char :=
  '"' :: (escapeList f.1.data ++ ('"' :: ':' :: printVal f.2))

/-- Read one `"name":value` field off the front of a character list. -/
def parseField (cs : List Char) : Option ((String × JSVal) × List Char) :=
  if cs.head? = some '"' then
    match parseStrChars cs.tail with
    | none => none
    | some (k, r1) =>
      if r1.head? = some ':' then
        match parseVal r1.tail with
        | none => none
        | some (v, r2) => some ((String.mk k, v), r2)
      else none
  else none

theorem parseField_spec (f : String × JSVal) (rest : List Char)
    (hrest : headNotDigit rest = true) :
    parseField (printField f ++ rest) = some (f, rest) := by
  obtain ⟨k, v⟩ := f
  show parseField (('"' :: (escapeList k.data ++ ('"' :: ':' :: printVal v))) ++ rest) =
    some ((k, v), rest)
  rw [List.cons_append, List.append_assoc]
  unfold parseField
  rw [if_pos (by simp)]
  show (match parseStrChars (escapeList k.data ++ (('"' :: ':' :: printVal v) ++ rest)) with
    | none => none
    | some (kk, r1) =>
      if r1.head? = some ':' then
        match parseVal r1.tail with
        | none => none
        | some (vv, r2) => some ((String.mk kk, vv), r2)
      else none) = some ((k, v), rest)
  rw [List.cons_append, List.cons_append]
  rw [parseStrChars_spec k.data (':' :: (printVal v ++ rest))]
  show (if (':' :: (printVal v ++ rest)).head? = some ':' then
      match parseVal (':' :: (printVal v ++ rest)).tail with
      | none => none
      | some (vv, r2) => some ((String.mk k.data, vv), r2)
    else none) = some ((k, v), rest)
  rw [if_pos (show (':' :: (printVal v ++ rest)).head? = some ':' from rfl)]
  show (match parseVal (printVal v ++ rest) with
    | none => none
    | some (vv, r2) => some ((String.mk k.data, vv), r2)) = some ((k, v), rest)
  rw [parseVal_spec v rest hrest]

/-- The serialized form of the remaining fields of an object: either the
closing brace, or a comma followed by the next field and the rest. -/
def printFieldsTail : JSObj → List Char
  | [] => ['\x7d']
  | f :: fs => ',' :: (printField f ++ printFieldsTail fs)

/-- Read a non-empty comma-separated field list followed by the closing
brace, with an explicit fuel bound on the number of fields. -/
def parseFieldsCont : Nat → List Char → Option (JSObj × List Char)
  | 0, _ => none
  | fuel + 1, cs =>
    match parseField cs with
    | none => none
    | some (f, r1) =>
      if r1.head? = some '\x7d' then some ([f], r1.tail)
      else if r1.head? = some ',' then
        match parseFieldsCont fuel r1.tail with
        | none => none
        | some (fs, r3) => some (f :: fs, r3)
      else none

theorem parseFieldsCont_spec (fs : JSObj) :
    ∀ (f : String × JSVal) (fuel : Nat), fs.length < fuel →
      parseFieldsCont fuel (printField f ++ printFieldsTail fs) = some (f :: fs, []) := by
  induction fs with
  | nil =>
    intro f fuel hfuel
    obtain ⟨fuel2, rfl⟩ : ∃ m, fuel = m + 1 := ⟨fuel - 1, by omega⟩
    show parseFieldsCont (fuel2 + 1) (printField f ++ ['\x7d']) = some ([f], [])
    have hpf := parseField_spec f ['\x7d'] (by decide)
    simp only [parseFieldsCont]
    rw [hpf]
    rfl
  | cons g gs ih =>
    intro f fuel hfuel
    obtain ⟨fuel2, rfl⟩ : ∃ m, fuel = m + 1 := ⟨fuel - 1, by omega⟩
    show parseFieldsCont (fuel2 + 1)
      (printField f ++ (',' :: (printField g ++ printFieldsTail gs))) = some (f :: g :: gs, [])
    have hpf := parseField_spec f (',' :: (printField g ++ printFieldsTail gs)) rfl
    simp only [parseFieldsCont]
    rw [hpf]
    show (if (',' :: (printField g ++ printFieldsTail gs)).head? = some '\x7d' then
        some ([f], (',' :: (printField g ++ printFieldsTail gs)).tail)
      else if (',' :: (printField g ++ printFieldsTail gs)).head? = some ',' then
        match parseFieldsCont fuel2 (',' :: (printField g ++ printFieldsTail gs)).tail with
        | none => none
        | some (fs2, r3) => some (f :: fs2, r3)
      else none) = some (f :: g :: gs, [])
    rw [if_neg (by simp), if_pos
      (show (',' :: (printField g ++ printFieldsTail gs)).head? = some ',' from rfl)]
    show (match parseFieldsCont fuel2 (printField g ++ printFieldsTail gs) with
      | none => none
      | some (fs2, r3) => some (f :: fs2, r3)) = some (f :: g :: gs, [])
    rw [ih g fuel2 (by simp at hfuel; omega)]

/-- Modelled from the spec: serialization of a record to the external
storage format, which the supplied sources do not implement.  A record is
written as a JSON-style object: an opening brace, the comma-separated
`"name":value` fields in order, and a closing brace. -/
def serialize (o : JSObj) : String :=
  match o with
  | [] => String.mk ['\x7b', '\x7d']
  | f :: fs => String.mk ('\x7b' :: (printField f ++ printFieldsTail fs))

/-- Read a whole serialized object, requiring that every character be
consumed. -/
def parseObj (cs : List Char) : Option JSObj :=
  if cs.head? = some '\x7b' then
    if cs.tail = ['\x7d'] then some []
    else
      match parseFieldsCont cs.tail.length cs.tail with
      | some (fs, []) => some fs
      | _ => none
  else none

/-- Modelled from the spec: parsing a serialized record back from the
external storage format, which the supplied sources do not implement. -/
def parse (s : String) : Option JSObj := parseObj s.data

theorem printFieldsTail_length (fs : JSObj) : fs.length + 1 ≤ (printFieldsTail fs).length := by
  induction fs with
  | nil => simp [printFieldsTail]
  | cons g gs ih =>
    show gs.length + 1 + 1 ≤ (',' :: (printField g ++ printFieldsTail gs)).length
    simp only [List.length_cons, List.length_append]
    omega

theorem parse_serialize (o : JSObj) : parse (serialize o) = some o := by
  cases o with
  | nil => rfl
  | cons f fs =>
    show parseObj ('\x7b' :: (printField f ++ printFieldsTail fs)) = some (f :: fs)
    have hne : printField f ++ printFieldsTail fs ≠ ['\x7d'] := by
      show ('"' :: (escapeList f.1.data ++ ('"' :: ':' :: printVal f.2))) ++ printFieldsTail fs
        ≠ ['\x7d']
      rw [List.cons_append]
      intro hcontra
      injection hcontra with h1 _
      exact absurd h1 (by decide)
    unfold parseObj
    rw [if_pos (show ('\x7b' :: (printField f ++ printFieldsTail fs)).head? = some '\x7b'
      from rfl)]
    show (if printField f ++ printFieldsTail fs = ['\x7d'] then some []
      else
        match parseFieldsCont (printField f ++ printFieldsTail fs).length
            (printField f ++ printFieldsTail fs) with
        | some (fs2, []) => some fs2
        | _ => none) = some (f :: fs)
    rw [if_neg hne]
    have hlen : fs.length < (printField f ++ printFieldsTail fs).length := by
      rw [List.length_append]
      have := printFieldsTail_length fs
      omega
    rw [parseFieldsCont_spec fs f _ hlen]

/-- C8: serializing a record that conforms to one of the five kinds to the
(spec-modelled) external storage format and parsing it back is the
identity, field for field — numeric flags and string contents come back
unchanged. -/
theorem c8_round_trip (o : JSObj)
    (_hconf : conforms HttpRequest o = true ∨ conforms HttpResponse o = true ∨
             conforms HttpRedirect o = true ∨ conforms JavascriptOperation o = true ∨
             conforms JavascriptCookieChange o = true) :
    parse (serialize o) = some o :=
  parse_serialize o

/-- C8 witness: the round trip on the specification's example
`HttpResponse` value. -/
theorem c8_witness : parse (serialize sampleResponse) = some sampleResponse :=
  c8_round_trip sampleResponse (Or.inr (Or.inl (by decide)))
